import Mathlib

/-
Verification of the query2 revelation layer of the Euclid database circuits.

The development embeds `mr-plonky2-circuits/src/query2/revelation/mod.rs`:
the host-side canonical key set builder (`RevelationRecursiveInput::new`) and
the parameter/proof orchestrator (`Parameters::{build, generate_proof,
verify_proof}`).  Parts of the repository that mod.rs calls into but whose
sources are not available here (the revelation constraint circuit in
circuit.rs, the byte-packing utilities of mrp2_utils, the recursion-framework
verifier gadgets and the plonky2 proving backend) are modelled from the
specification; each such definition says so in its doc comment.
-/

/-- MAPPING_KEY_LEN of mrp2_utils::types: the fixed 32-byte width of a mapping key. -/
def MAPPING_KEY_LEN : Nat := 32

/-- PACKED_MAPPING_KEY_LEN of mrp2_utils::types: a packed key has 32 / 4 = 8 limbs. -/
def PACKED_MAPPING_KEY_LEN : Nat := 8

/-- Modelled from the spec: `left_pad32` (mrp2_utils::eth, not under src/) left-pads a
byte key to the fixed 32-byte width of a MappingKey. -/
def left_pad32 (k : List Nat) : List Nat :=
  List.replicate (32 - k.length) 0 ++ k

/-- Modelled from the spec: `Packer::pack` (mrp2_utils::utils, not under src/)
reinterprets a byte string as a fixed-size sequence of field-sized limbs, four bytes
per limb, bit-exactly (big-endian within each limb).  The final short chunk of a
ragged input is folded into one limb; inputs reaching it from the builder are always
exactly 32 bytes, so that branch is never taken there. -/
def pack : List Nat → List Nat
  | a :: b :: c :: d :: rest => (a * 16777216 + b * 65536 + c * 256 + d) :: pack rest
  | [] => []
  | rest => [rest.foldl (fun x y => x * 256 + y) 0]

/-- Byte-level inverse of `pack` on full four-byte chunks. -/
def unpack : List Nat → List Nat
  | [] => []
  | l :: rest =>
    l / 16777216 % 256 :: l / 65536 % 256 :: l / 256 % 256 :: l % 256 :: unpack rest

/-- The packed form of a raw key: `left_pad32(key).pack()` (mod.rs line 92). -/
def packKey (k : List Nat) : List Nat := pack (left_pad32 k)

/-- The sort key of the builder: `*packed.last().unwrap()` (mod.rs line 93), the final
packed limb.  The packed form of a padded key is never empty, so the default is dead. -/
def lastLimb (k : List Nat) : Nat := (packKey k).getLast?.getD 0

/-- The zero-filled packed key `[0u32; PACKED_MAPPING_KEY_LEN]` (mod.rs line 101). -/
def zeroKey : List Nat := List.replicate PACKED_MAPPING_KEY_LEN 0

/-- Sorted-association-list insertion with overwrite on an equal key: the image of one
`BTreeMap` insertion as performed by `collect::<BTreeMap<_, _>>()` (mod.rs line 95).
A later insertion with an already-present key replaces the stored value. -/
def insertKV : List (Nat × List Nat) → Nat → List Nat → List (Nat × List Nat)
  | [], k, v => [(k, v)]
  | (k', v') :: rest, k, v =>
    if k < k' then (k, v) :: (k', v') :: rest
    else if k = k' then (k, v) :: rest
    else (k', v') :: insertKV rest k v

/-- The `sorted_keys` map of `RevelationRecursiveInput::new` (mod.rs lines 89-95):
every raw key contributes the pair (last packed limb, packed key), collected in input
order into an ordered map, later entries overwriting earlier ones on a collision of
the last limb; iteration order is ascending in the limb. -/
def canonMap (keys : List (List Nat)) : List (Nat × List Nat) :=
  keys.foldl (fun m k => insertKV m (lastLimb k) (packKey k)) []

/-- The keys array built by `create_array` (mod.rs lines 96-103): the first entries are
the map's values in ascending order of their final limb, the remaining positions up to
L are zero-filled. -/
def canonKeys (L : Nat) (keys : List (List Nat)) : List (List Nat) :=
  ((canonMap keys).map Prod.snd
    ++ List.replicate (L - (canonMap keys).length) zeroKey).take L

/-- Modelled from the spec: the public data attested by a block-database proof
(crate::block::PublicInputs, not under src/), with the Poseidon roots and the packed
block hash abstracted to single naturals.  The record also carries the verifying key
the proof was produced under and a genuineness flag standing for cryptographic
validity under that key (the proving backend is an external collaborator). -/
structure BlockDbProof where
  init_root : Nat
  last_root : Nat
  init_block_number : Nat
  last_block_number : Nat
  last_block_hash : Nat
  vk : Nat
  valid : Bool
  deriving DecidableEq

/-- Modelled from the spec: the public data attested by a query2/block proof
(query2::block::BlockPublicInputs, not under src/): claimed max block number, block
range, claimed root, contract and user addresses, storage slots and the keys digest,
plus the verifying key and a genuineness flag, as for `BlockDbProof`. -/
structure Query2BlockProof where
  block_number : Nat
  range : Nat
  root : Nat
  smc_address : Nat
  user_address : Nat
  mapping_slot : Nat
  length_slot : Nat
  digest : Nat
  vk : Nat
  valid : Bool
  deriving DecidableEq

/-- The witness values of the revelation logic circuit (struct RevelationCircuit, used
by mod.rs lines 111-116): the L packed keys, the occupancy count (a `u8` in the
source, hence always below 256), and the claimed block range. -/
structure RevelationCircuit where
  packed_keys : List (List Nat)
  num_entries : Nat
  query_min_block_number : Nat
  query_max_block_number : Nat
  deriving DecidableEq

/-- `RevelationRecursiveInput` (mod.rs lines 69-77): the per-request bundle of logic
witnesses and the two deserialized sub-proofs. -/
structure RevelationRecursiveInput where
  logic_inputs : RevelationCircuit
  query2_block_proof : Query2BlockProof
  block_db_proof : BlockDbProof
  deriving DecidableEq

/-- `Parameters` (mod.rs lines 50-64), reduced to the data the model needs: the
statically known query-side circuit set and the single database-side verifying key
fixed at build time.  The compiled circuit itself is the constraint predicate below. -/
structure Parameters where
  query2_block_circuit_set : List Nat
  block_db_vk : Nat
  deriving DecidableEq

/-- The emitted revelation proof: its public-input sequence plus the verifying key of
the circuit it was produced by (serialization is an external exact round-trip). -/
structure RevelationProof where
  publicInputs : List Nat
  vkey : Nat
  deriving DecidableEq

/-- `RevelationRecursiveInput::new` (mod.rs lines 80-122).  The raw keys are packed and
collected into the ordered map, the array is filled to L with zero keys, and the count
check `assert!(num_entries <= L)` is modelled as the second error branch.  A key longer
than 32 bytes makes the source's `left_pad32` abort, modelled as the first error
branch.  `num_entries as u8` is the mod-256 truncation.  The sub-proofs arrive already
structured: their byte round-trip is an external contract (spec section 6). -/
def RevelationRecursiveInput.new (L : Nat) (mapping_keys : List (List Nat))
    (query_min_block query_max_block : Nat) (query2_block_proof : Query2BlockProof)
    (block_db_proof : BlockDbProof) : Except String RevelationRecursiveInput :=
  if mapping_keys.any (fun k => 32 < k.length) then
    .error "left_pad32: input longer than 32 bytes"
  else if mapping_keys.length ≤ L then
    .ok { logic_inputs :=
            { packed_keys := canonKeys L mapping_keys
              num_entries := mapping_keys.length % 256
              query_min_block_number := query_min_block
              query_max_block_number := query_max_block }
          query2_block_proof := query2_block_proof
          block_db_proof := block_db_proof }
  else .error "Number of entries should not exceed fixed parameter L"

/-- Modelled from the spec: `map_to_curve_point` (group_hashing, not under src/) is an
opaque commitment mapping one packed key to a curve point; represented by a fixed
encoding into the naturals, with curve addition represented by addition. -/
def digestOne (limbs : List Nat) : Nat :=
  limbs.foldl (fun a b => a * 4294967296 + b + 1) 1

/-- Modelled from the spec (section 4.2): the digest the circuit recomputes from the
revealed keys - the sum of the per-key commitments of the first num_entries packed
keys of the witness array. -/
def circuitDigest (keys : List (List Nat)) (num_entries : Nat) : Nat :=
  ((keys.take num_entries).map digestOne).sum

/-- Modelled from the spec (section 4.2, `RevelationCircuit::build` lives in circuit.rs
which is not under src/): the statement constrained by the revelation logic circuit.
The bound digest equals the digest recomputed from the revealed keys; the revealed
block range equals the range claimed by the query-side proof; the query-side claimed
root matches the root attested by the database-side proof; and the database's last
known block number is at least the query's max block number (freshness). -/
def revelationConstraints (inp : RevelationRecursiveInput) : Prop :=
  inp.query2_block_proof.digest
      = circuitDigest inp.logic_inputs.packed_keys inp.logic_inputs.num_entries
    ∧ inp.query2_block_proof.block_number = inp.logic_inputs.query_max_block_number
    ∧ inp.query2_block_proof.range
      = inp.logic_inputs.query_max_block_number - inp.logic_inputs.query_min_block_number
    ∧ inp.query2_block_proof.root = inp.block_db_proof.last_root
    ∧ inp.query2_block_proof.block_number ≤ inp.block_db_proof.last_block_number

instance (inp : RevelationRecursiveInput) : Decidable (revelationConstraints inp) := by
  unfold revelationConstraints; infer_instance

/-- Modelled from the spec (sections 4.3 and 6): the obligations enforced by the two
verifier gadgets.  The database side accepts only a genuine proof produced under the
single verifying key fixed at build time; the query side accepts a genuine proof whose
verifying key belongs to the statically enumerated circuit set. -/
def gadgetChecks (p : Parameters) (inp : RevelationRecursiveInput) : Prop :=
  inp.block_db_proof.valid = true
    ∧ inp.block_db_proof.vk = p.block_db_vk
    ∧ inp.query2_block_proof.valid = true
    ∧ inp.query2_block_proof.vk ∈ p.query2_block_circuit_set

instance (p : Parameters) (inp : RevelationRecursiveInput) :
    Decidable (gadgetChecks p inp) := by
  unfold gadgetChecks; infer_instance

/-- Flattening of the packed keys into the public-input sequence. -/
def flattenKeys : List (List Nat) → List Nat
  | [] => []
  | k :: rest => k ++ flattenKeys rest

/-- Modelled from the spec (section 6): the fixed public-input order of the emitted
proof - sorted packed keys, occupancy, min block, max block, imported database
root/range data, imported query digest/address data. -/
def publicInputLayout (inp : RevelationRecursiveInput) : List Nat :=
  flattenKeys inp.logic_inputs.packed_keys
    ++ [inp.logic_inputs.num_entries,
        inp.logic_inputs.query_min_block_number,
        inp.logic_inputs.query_max_block_number,
        inp.block_db_proof.init_root,
        inp.block_db_proof.last_root,
        inp.block_db_proof.init_block_number,
        inp.block_db_proof.last_block_number,
        inp.block_db_proof.last_block_hash,
        inp.query2_block_proof.digest,
        inp.query2_block_proof.smc_address,
        inp.query2_block_proof.user_address,
        inp.query2_block_proof.mapping_slot,
        inp.query2_block_proof.length_slot]

/-- Modelled from the spec: the verifying key of the compiled revelation circuit,
determined by the build configuration. -/
def paramsVKey (p : Parameters) : Nat :=
  p.query2_block_circuit_set.foldl (fun a b => a * 1000003 + b + 1) 7 * 1000003
    + p.block_db_vk

/-- `Parameters::build` (mod.rs lines 131-177): records the query-side circuit set and
the single database-side verifying key.  The database circuit set argument only feeds
the gadget construction and is subsumed by the fixed verifying key in this model. -/
def Parameters.build (query2_block_set : List Nat) (_block_db_circuit_set : List Nat)
    (block_db_verifier_data : Nat) : Parameters :=
  { query2_block_circuit_set := query2_block_set
    block_db_vk := block_db_verifier_data }

/-- `Parameters::generate_proof` (mod.rs lines 178-201), with witness assignment and
the backend's proving routine modelled from the spec: proving succeeds exactly when
the two gadget obligations and the revelation constraints are satisfied, and is
atomic - either a complete proof is returned or an error. -/
def Parameters.generate_proof (p : Parameters) (inp : RevelationRecursiveInput) :
    Except String RevelationProof :=
  if gadgetChecks p inp ∧ revelationConstraints inp then
    .ok { publicInputs := publicInputLayout inp, vkey := paramsVKey p }
  else .error "proving error: constraints unsatisfiable"

/-- `Parameters::verify_proof` (mod.rs lines 208-211), with the backend's verification
routine modelled from the spec's contract: a proof verifies against the compiled
verifying key it was produced under. -/
def Parameters.verify_proof (p : Parameters) (proof : RevelationProof) :
    Except String Unit :=
  if proof.vkey = paramsVKey p then .ok () else .error "verification failure"

/-- Success observer for fallible operations. -/
def exceptIsOk {ε α : Type} : Except ε α → Bool
  | .ok _ => true
  | .error _ => false

/-- The five test NFT keys of groth16-framework/tests/query2.rs (TEST_NFT_IDS, line 51):
L = 5 copies of value 0, each `left_pad::<MAPPING_KEY_LEN>(0u32.to_le_bytes())`, i.e. the
32-byte zero key. -/
def testKeys : List (List Nat) := List.replicate 5 (List.replicate 32 0)

/-- min_block_number of the end-to-end test query (query2.rs line 72). -/
def testMinBlock : Nat := 5594951

/-- max_block_number of the end-to-end test query (query2.rs line 73). -/
def testMaxBlock : Nat := 5594951

/-- The synthetic block-db proof of the end-to-end test: its attested last block number
is max_block_number + 1 (query2.rs line 138); roots and hash abstracted to small
naturals; produced under the verifying key fixed at build time. -/
def testDbProof : BlockDbProof :=
  { init_root := 3, last_root := 7, init_block_number := 1,
    last_block_number := 5594952, last_block_hash := 11, vk := 21, valid := true }

/-- The synthetic query2/block proof of the end-to-end test (query2.rs lines 166-209):
claimed block number 5594951, range max - min = 0, root equal to the db proof's last
root, digest the curve sum of the per-key commitments of the five test keys. -/
def testQueryProof : Query2BlockProof :=
  { block_number := 5594951, range := 0, root := 7, smc_address := 13, user_address := 17,
    mapping_slot := 19, length_slot := 23,
    digest := (testKeys.map (fun k => digestOne (packKey k))).sum, vk := 31, valid := true }

/-- Parameters built from a query-side circuit set containing the test query proof's
verifying key and the test db proof's verifying key as the fixed database key. -/
def testParams : Parameters := Parameters.build [31] [41] 21

/-- The logic witnesses the builder produces for the end-to-end test input. -/
def goodLogic : RevelationCircuit :=
  { packed_keys := canonKeys 5 testKeys, num_entries := 5,
    query_min_block_number := testMinBlock, query_max_block_number := testMaxBlock }

/-- A fully consistent recursive input for the end-to-end scenario. -/
def goodInp : RevelationRecursiveInput :=
  { logic_inputs := goodLogic, query2_block_proof := testQueryProof,
    block_db_proof := testDbProof }

/-- The consistent input except that the query-side claimed root (8) differs from the
database-side attested last root (7). -/
def c1badInp : RevelationRecursiveInput :=
  { goodInp with query2_block_proof := { testQueryProof with root := 8 } }

/-- The consistent input except that the database-side proof was produced under
verifying key 22, different from the key 21 fixed at build time. -/
def c2badInp : RevelationRecursiveInput :=
  { goodInp with block_db_proof := { testDbProof with vk := 22 } }

/-- The consistent input except that the query-side public digest is 0, which differs
from the digest recomputable from the packed keys. -/
def c3badInp : RevelationRecursiveInput :=
  { goodInp with query2_block_proof := { testQueryProof with digest := 0 } }

/-- The consistent input except that the database-side attested last block number
(5594950) is below the claimed query max block number (5594951). -/
def c4badInp : RevelationRecursiveInput :=
  { goodInp with block_db_proof := { testDbProof with last_block_number := 5594950 } }

/-- 256 single-byte keys with pairwise distinct final limbs, presented in descending
order of the final limb. -/
def c6keys : List (List Nat) := (List.range 256).reverse.map (fun i => [i])

/-- Two canonical-form 32-byte keys with ascending distinct final limbs. -/
def c8ks : List (List Nat) :=
  [List.replicate 31 0 ++ [1], List.replicate 31 0 ++ [2]]

/-- Membership in an insertion result: every entry is an old entry or the new pair. -/
theorem insertKV_mem (q : Nat × List Nat) :
    ∀ (m : List (Nat × List Nat)) (k : Nat) (v : List Nat),
      q ∈ insertKV m k v → q ∈ m ∨ q = (k, v)
  | [], k, v, h => by
      simp only [insertKV, List.mem_singleton] at h
      exact Or.inr h
  | (k', v') :: rest, k, v, h => by
      simp only [insertKV] at h
      split at h
      · rcases List.mem_cons.1 h with h | h
        · exact Or.inr h
        · exact Or.inl h
      · split at h
        · rcases List.mem_cons.1 h with h | h
          · exact Or.inr h
          · exact Or.inl (List.mem_cons_of_mem _ h)
        · rcases List.mem_cons.1 h with h | h
          · exact Or.inl (h ▸ List.mem_cons_self _ _)
          · rcases insertKV_mem q rest k v h with h | h
            · exact Or.inl (List.mem_cons_of_mem _ h)
            · exact Or.inr h

/-- Insertion preserves strict ascending order of the stored sort keys. -/
theorem insertKV_sorted :
    ∀ (m : List (Nat × List Nat)) (k : Nat) (v : List Nat),
      List.Pairwise (fun a b => a.1 < b.1) m →
      List.Pairwise (fun a b => a.1 < b.1) (insertKV m k v)
  | [], k, v, _ => by simp [insertKV]
  | (k', v') :: rest, k, v, h => by
      rcases List.pairwise_cons.1 h with ⟨hk', hrest⟩
      simp only [insertKV]
      split
      · rename_i hlt
        refine List.pairwise_cons.2 ⟨?_, h⟩
        intro b hb
        rcases List.mem_cons.1 hb with rfl | hb
        · exact hlt
        · exact Nat.lt_trans hlt (hk' b hb)
      · split
        · rename_i heq
          refine List.pairwise_cons.2 ⟨?_, hrest⟩
          intro b hb
          have := hk' b hb
          omega
        · refine List.pairwise_cons.2 ⟨?_, insertKV_sorted rest k v hrest⟩
          intro b hb
          rcases insertKV_mem b rest k v hb with hb | rfl
          · exact hk' b hb
          · rename_i h1 h2
            simp only at h1 h2 ⊢
            omega

/-- Insertion grows the map by at most one entry. -/
theorem insertKV_length_le :
    ∀ (m : List (Nat × List Nat)) (k : Nat) (v : List Nat),
      (insertKV m k v).length ≤ m.length + 1
  | [], k, v => by simp [insertKV]
  | (k', v') :: rest, k, v => by
      simp only [insertKV]
      split
      · simp
      · split
        · simp
        · have := insertKV_length_le rest k v
          simp only [List.length_cons]
          omega

/-- Inserting a key above every stored key appends at the end. -/
theorem insertKV_append_of_lt :
    ∀ (m : List (Nat × List Nat)) (k : Nat) (v : List Nat),
      (∀ q ∈ m, q.1 < k) → insertKV m k v = m ++ [(k, v)]
  | [], k, v, _ => by simp [insertKV]
  | (k', v') :: rest, k, v, h => by
      have hk' : k' < k := h (k', v') (List.mem_cons_self _ _)
      simp only [insertKV, if_neg (by omega : ¬k < k'), if_neg (by omega : ¬k = k'),
        List.cons_append, List.cons.injEq, true_and]
      exact insertKV_append_of_lt rest k v (fun q hq => h q (List.mem_cons_of_mem _ hq))

/-- Generalized foldl invariant: entries of the built map come from the accumulator or
from packing one of the folded keys. -/
theorem canonMap_go_mem (q : Nat × List Nat) :
    ∀ (keys : List (List Nat)) (acc : List (Nat × List Nat)),
      q ∈ keys.foldl (fun m k => insertKV m (lastLimb k) (packKey k)) acc →
      q ∈ acc ∨ ∃ raw ∈ keys, q = (lastLimb raw, packKey raw)
  | [], acc, h => Or.inl h
  | key :: rest, acc, h => by
      rcases canonMap_go_mem q rest (insertKV acc (lastLimb key) (packKey key)) h with
        h | ⟨raw, hraw, rfl⟩
      · rcases insertKV_mem q acc (lastLimb key) (packKey key) h with h | rfl
        · exact Or.inl h
        · exact Or.inr ⟨key, List.mem_cons_self _ _, rfl⟩
      · exact Or.inr ⟨raw, List.mem_cons_of_mem _ hraw, rfl⟩

/-- Every entry of the builder's ordered map is the packing of one of the input keys,
keyed by its final packed limb. -/
theorem canonMap_mem (q : Nat × List Nat) (keys : List (List Nat)) (h : q ∈ canonMap keys) :
    ∃ raw ∈ keys, q = (lastLimb raw, packKey raw) := by
  rcases canonMap_go_mem q keys [] h with h | h
  · simp at h
  · exact h

/-- Generalized foldl invariant for sortedness. -/
theorem canonMap_go_sorted :
    ∀ (keys : List (List Nat)) (acc : List (Nat × List Nat)),
      List.Pairwise (fun a b => a.1 < b.1) acc →
      List.Pairwise (fun a b => a.1 < b.1)
        (keys.foldl (fun m k => insertKV m (lastLimb k) (packKey k)) acc)
  | [], _acc, h => h
  | key :: rest, acc, h =>
      canonMap_go_sorted rest _ (insertKV_sorted acc (lastLimb key) (packKey key) h)

/-- The builder's ordered map is strictly ascending in the final packed limb. -/
theorem canonMap_sorted (keys : List (List Nat)) :
    List.Pairwise (fun a b => a.1 < b.1) (canonMap keys) :=
  canonMap_go_sorted keys [] List.Pairwise.nil

/-- Generalized foldl invariant for the length bound. -/
theorem canonMap_go_length :
    ∀ (keys : List (List Nat)) (acc : List (Nat × List Nat)),
      (keys.foldl (fun m k => insertKV m (lastLimb k) (packKey k)) acc).length
        ≤ acc.length + keys.length
  | [], _acc => Nat.le_refl _
  | key :: rest, acc => by
      have h1 := canonMap_go_length rest (insertKV acc (lastLimb key) (packKey key))
      have h2 := insertKV_length_le acc (lastLimb key) (packKey key)
      simp only [List.foldl_cons, List.length_cons]
      omega

/-- Deduplication only shrinks: the ordered map has at most one entry per input key. -/
theorem canonMap_length_le (keys : List (List Nat)) :
    (canonMap keys).length ≤ keys.length := by
  have := canonMap_go_length keys []
  simpa [canonMap] using this

/-- A strictly sorted, collision-free key list is stored in input order: folding it into
the map appends every key at the end. -/
theorem canonMap_go_of_sorted :
    ∀ (keys : List (List Nat)) (acc : List (Nat × List Nat)),
      List.Pairwise (fun u v => lastLimb u < lastLimb v) keys →
      (∀ q ∈ acc, ∀ k ∈ keys, q.1 < lastLimb k) →
      keys.foldl (fun m k => insertKV m (lastLimb k) (packKey k)) acc
        = acc ++ keys.map (fun k => (lastLimb k, packKey k))
  | [], acc, _, _ => by simp
  | key :: rest, acc, hs, hacc => by
      rcases List.pairwise_cons.1 hs with ⟨hkey, hrest⟩
      simp only [List.foldl_cons]
      rw [insertKV_append_of_lt acc (lastLimb key) (packKey key)
        (fun q hq => hacc q hq key (List.mem_cons_self _ _))]
      rw [canonMap_go_of_sorted rest (acc ++ [(lastLimb key, packKey key)]) hrest ?_]
      · simp
      · intro q hq k hk
        rcases List.mem_append.1 hq with hq | hq
        · exact hacc q hq k (List.mem_cons_of_mem _ hk)
        · simp only [List.mem_singleton] at hq
          subst hq
          exact hkey k hk

/-- On an input whose final limbs are strictly ascending, the builder's map is exactly
the packed input in order. -/
theorem canonMap_of_sorted (keys : List (List Nat))
    (h : List.Pairwise (fun u v => lastLimb u < lastLimb v) keys) :
    canonMap keys = keys.map (fun k => (lastLimb k, packKey k)) := by
  have := canonMap_go_of_sorted keys [] h (by simp)
  simpa [canonMap] using this

/-- Packing n full four-byte chunks yields n limbs. -/
theorem pack_length :
    ∀ (n : Nat) (k : List Nat), k.length = 4 * n → (pack k).length = n
  | 0, k, h => by
      have : k = [] := List.eq_nil_of_length_eq_zero (by omega)
      subst this
      rfl
  | n + 1, k, h => by
      match k, h with
      | a :: b :: c :: d :: rest, h =>
        simp only [List.length_cons] at h
        simp only [pack, List.length_cons]
        rw [pack_length n rest (by omega)]

/-- Unpacking inverts packing on byte lists of full four-byte chunks. -/
theorem unpack_pack :
    ∀ (n : Nat) (k : List Nat), k.length = 4 * n → (∀ x ∈ k, x < 256) →
      unpack (pack k) = k
  | 0, k, h, _ => by
      have : k = [] := List.eq_nil_of_length_eq_zero (by omega)
      subst this
      rfl
  | n + 1, k, h, hb => by
      match k, h with
      | a :: b :: c :: d :: rest, h =>
        simp only [List.length_cons] at h
        have ha : a < 256 := hb a (by simp)
        have hbb : b < 256 := hb b (by simp)
        have hc : c < 256 := hb c (by simp)
        have hd : d < 256 := hb d (by simp)
        simp only [pack, unpack, List.cons.injEq]
        refine ⟨by omega, by omega, by omega, by omega, ?_⟩
        exact unpack_pack n rest (by omega) (fun x hx => hb x (by simp [hx]))

/-- Left-padding is the identity on keys already at the full 32-byte width. -/
theorem left_pad32_of_length (k : List Nat) (h : k.length = 32) : left_pad32 k = k := by
  simp [left_pad32, h]

/-- Insertions with distinct sort keys commute. -/
theorem insertKV_comm :
    ∀ (m : List (Nat × List Nat)) (k1 : Nat) (v1 : List Nat) (k2 : Nat) (v2 : List Nat),
      k1 ≠ k2 →
      insertKV (insertKV m k1 v1) k2 v2 = insertKV (insertKV m k2 v2) k1 v1
  | [], k1, v1, k2, v2, hne => by
      simp only [insertKV]
      rcases Nat.lt_trichotomy k1 k2 with h | h | h
      · rw [if_neg (by omega : ¬k2 < k1), if_neg (by omega : ¬k2 = k1), if_pos h]
        try simp [insertKV]
      · exact absurd h hne
      · rw [if_pos h, if_neg (by omega : ¬k1 < k2), if_neg (by omega : ¬k1 = k2)]
        try simp [insertKV]
  | (k', v') :: rest, k1, v1, k2, v2, hne => by
      rcases Nat.lt_trichotomy k1 k' with h1 | h1 | h1 <;>
        rcases Nat.lt_trichotomy k2 k' with h2 | h2 | h2
      · -- k1 < k', k2 < k'
        rw [show insertKV ((k', v') :: rest) k1 v1 = (k1, v1) :: (k', v') :: rest from by
              simp only [insertKV, if_pos h1],
            show insertKV ((k', v') :: rest) k2 v2 = (k2, v2) :: (k', v') :: rest from by
              simp only [insertKV, if_pos h2]]
        rcases Nat.lt_trichotomy k1 k2 with h3 | h3 | h3
        · simp only [insertKV, if_neg (by omega : ¬k2 < k1), if_neg (by omega : ¬k2 = k1),
            if_pos h2, if_pos h3]
        · exact absurd h3 hne
        · simp only [insertKV, if_pos h3, if_neg (by omega : ¬k1 < k2),
            if_neg (by omega : ¬k1 = k2), if_pos h1]
      · -- k1 < k', k2 = k'
        subst h2
        rw [show insertKV ((k2, v') :: rest) k1 v1 = (k1, v1) :: (k2, v') :: rest from by
              simp only [insertKV, if_pos h1],
            show insertKV ((k2, v') :: rest) k2 v2 = (k2, v2) :: rest from by
              simp only [insertKV, if_neg (by omega : ¬k2 < k2), if_pos rfl, if_true, eq_self_iff_true]]
        simp only [insertKV, if_neg (by omega : ¬k2 < k1), if_neg (by omega : ¬k2 = k1),
          if_neg (by omega : ¬k2 < k2), if_pos rfl, if_true, eq_self_iff_true, if_pos h1]
      · -- k1 < k', k' < k2
        rw [show insertKV ((k', v') :: rest) k1 v1 = (k1, v1) :: (k', v') :: rest from by
              simp only [insertKV, if_pos h1],
            show insertKV ((k', v') :: rest) k2 v2 = (k', v') :: insertKV rest k2 v2 from by
              simp only [insertKV, if_neg (by omega : ¬k2 < k'),
                if_neg (by omega : ¬k2 = k')]]
        simp only [insertKV, if_neg (by omega : ¬k2 < k1), if_neg (by omega : ¬k2 = k1),
          if_neg (by omega : ¬k2 < k'), if_neg (by omega : ¬k2 = k'), if_pos h1]
      · -- k1 = k', k2 < k'
        subst h1
        rw [show insertKV ((k1, v') :: rest) k1 v1 = (k1, v1) :: rest from by
              simp only [insertKV, if_neg (by omega : ¬k1 < k1), if_pos rfl, if_true, eq_self_iff_true],
            show insertKV ((k1, v') :: rest) k2 v2 = (k2, v2) :: (k1, v') :: rest from by
              simp only [insertKV, if_pos h2]]
        simp only [insertKV, if_pos h2, if_neg (by omega : ¬k1 < k2),
          if_neg hne, if_neg (by omega : ¬k1 < k1), if_pos rfl, if_true, eq_self_iff_true]
      · -- k1 = k' = k2: contradiction
        exact absurd (h1.trans h2.symm) hne
      · -- k1 = k', k' < k2
        subst h1
        rw [show insertKV ((k1, v') :: rest) k1 v1 = (k1, v1) :: rest from by
              simp only [insertKV, if_neg (by omega : ¬k1 < k1), if_pos rfl, if_true, eq_self_iff_true],
            show insertKV ((k1, v') :: rest) k2 v2 = (k1, v') :: insertKV rest k2 v2 from by
              simp only [insertKV, if_neg (by omega : ¬k2 < k1),
                if_neg (by omega : ¬k2 = k1)]]
        simp only [insertKV, if_neg (by omega : ¬k2 < k1), if_neg (by omega : ¬k2 = k1),
          if_neg (by omega : ¬k1 < k1), if_pos rfl, if_true, eq_self_iff_true]
      · -- k' < k1, k2 < k'
        rw [show insertKV ((k', v') :: rest) k1 v1 = (k', v') :: insertKV rest k1 v1 from by
              simp only [insertKV, if_neg (by omega : ¬k1 < k'),
                if_neg (by omega : ¬k1 = k')],
            show insertKV ((k', v') :: rest) k2 v2 = (k2, v2) :: (k', v') :: rest from by
              simp only [insertKV, if_pos h2]]
        simp only [insertKV, if_pos h2, if_neg (by omega : ¬k1 < k2),
          if_neg (by omega : ¬k1 = k2), if_neg (by omega : ¬k1 < k'),
          if_neg (by omega : ¬k1 = k')]
      · -- k' < k1, k2 = k'
        subst h2
        rw [show insertKV ((k2, v') :: rest) k1 v1 = (k2, v') :: insertKV rest k1 v1 from by
              simp only [insertKV, if_neg (by omega : ¬k1 < k2),
                if_neg (by omega : ¬k1 = k2)],
            show insertKV ((k2, v') :: rest) k2 v2 = (k2, v2) :: rest from by
              simp only [insertKV, if_neg (by omega : ¬k2 < k2), if_pos rfl, if_true, eq_self_iff_true]]
        simp only [insertKV, if_neg (by omega : ¬k2 < k2), if_pos rfl, if_true, eq_self_iff_true,
          if_neg (by omega : ¬k1 < k2), if_neg (by omega : ¬k1 = k2)]
      · -- k' < k1, k' < k2
        rw [show insertKV ((k', v') :: rest) k1 v1 = (k', v') :: insertKV rest k1 v1 from by
              simp only [insertKV, if_neg (by omega : ¬k1 < k'),
                if_neg (by omega : ¬k1 = k')],
            show insertKV ((k', v') :: rest) k2 v2 = (k', v') :: insertKV rest k2 v2 from by
              simp only [insertKV, if_neg (by omega : ¬k2 < k'),
                if_neg (by omega : ¬k2 = k')]]
        simp only [insertKV, if_neg (by omega : ¬k2 < k'), if_neg (by omega : ¬k2 = k'),
          if_neg (by omega : ¬k1 < k'), if_neg (by omega : ¬k1 = k'), List.cons.injEq,
          true_and]
        exact insertKV_comm rest k1 v1 k2 v2 hne

/-- A fold over a list is invariant under permutation when the folded operation
commutes on the elements of the list. -/
theorem foldl_perm_of_comm {α β : Type} (f : β → α → β) {l l' : List α}
    (h : l.Perm l') :
    (∀ x ∈ l, ∀ y ∈ l, ∀ z, f (f z x) y = f (f z y) x) →
    ∀ b, l.foldl f b = l'.foldl f b := by
  induction h with
  | nil => intro _ b; rfl
  | cons x h ih =>
      intro hc b
      simp only [List.foldl_cons]
      exact ih (fun a ha c hcm z =>
        hc a (List.mem_cons_of_mem _ ha) c (List.mem_cons_of_mem _ hcm) z) _
  | swap x y t =>
      intro hc b
      simp only [List.foldl_cons]
      rw [hc y (by simp) x (by simp) b]
  | trans h1 h2 ih1 ih2 =>
      intro hc b
      rw [ih1 hc b, ih2 (fun a ha c hcm z =>
        hc a (h1.mem_iff.mpr ha) c (h1.mem_iff.mpr hcm) z) b]

/-- `List.any` is invariant under permutation. -/
theorem any_perm {α : Type} (p : α → Bool) {l l' : List α} (h : l.Perm l') :
    l.any p = l'.any p := by
  induction h with
  | nil => rfl
  | cons x h ih => simp only [List.any_cons, ih]
  | swap x y t => simp only [List.any_cons, ← Bool.or_assoc, Bool.or_comm (p y) (p x)]
  | trans h1 h2 ih1 ih2 => rw [ih1, ih2]

/-- Auxiliary: the padded form of a short key has the full 32-byte width. -/
theorem left_pad32_length (k : List Nat) (h : k.length ≤ 32) :
    (left_pad32 k).length = 32 := by
  simp only [left_pad32, List.length_append, List.length_replicate]
  omega

/-- C2: for every Parameters object and every RevelationRecursiveInput whose
database-side sub-proof was produced under a verifying key different from the single
verifying key fixed at build time, generate_proof fails with a proving error; the
database side accepts no other circuit shape. -/
theorem generate_proof_rejects_wrong_db_vk (p : Parameters)
    (inp : RevelationRecursiveInput) (h : inp.block_db_proof.vk ≠ p.block_db_vk) :
    exceptIsOk (p.generate_proof inp) = false := by
  unfold Parameters.generate_proof
  rw [if_neg]
  · rfl
  · intro hc
    rcases hc with ⟨hg, _⟩
    unfold gadgetChecks at hg
    exact h hg.2.1

/-- Witness for C2 at a concrete input: the database proof carries key 22 while 21 was
fixed at build time, and proving fails. -/
theorem generate_proof_rejects_wrong_db_vk_witness :
    c2badInp.block_db_proof.vk ≠ testParams.block_db_vk
      ∧ exceptIsOk (testParams.generate_proof c2badInp) = false :=
  ⟨by decide, generate_proof_rejects_wrong_db_vk testParams c2badInp (by decide)⟩

/-- C3: for every RevelationRecursiveInput in which the query-side sub-proof's public
digest differs from the digest recomputable from the supplied packed keys,
generate_proof fails with a proving error and returns no proof. -/
theorem generate_proof_rejects_digest_mismatch (p : Parameters)
    (inp : RevelationRecursiveInput)
    (h : inp.query2_block_proof.digest
      ≠ circuitDigest inp.logic_inputs.packed_keys inp.logic_inputs.num_entries) :
    exceptIsOk (p.generate_proof inp) = false := by
  unfold Parameters.generate_proof
  rw [if_neg]
  · rfl
  · intro hc
    rcases hc with ⟨_, hr⟩
    unfold revelationConstraints at hr
    exact h hr.1

/-- Witness for C3 at a concrete input: the query proof claims digest 0, different from
the digest of the packed keys, and proving fails. -/
theorem generate_proof_rejects_digest_mismatch_witness :
    c3badInp.query2_block_proof.digest
        ≠ circuitDigest c3badInp.logic_inputs.packed_keys c3badInp.logic_inputs.num_entries
      ∧ exceptIsOk (testParams.generate_proof c3badInp) = false :=
  ⟨by decide, generate_proof_rejects_digest_mismatch testParams c3badInp (by decide)⟩

/-- C4: for every RevelationRecursiveInput in which the claimed query max block number
exceeds the database-side proof's attested last block number, generate_proof fails with
a proving error (freshness). -/
theorem generate_proof_rejects_stale_db (p : Parameters)
    (inp : RevelationRecursiveInput)
    (h : inp.block_db_proof.last_block_number
      < inp.logic_inputs.query_max_block_number) :
    exceptIsOk (p.generate_proof inp) = false := by
  unfold Parameters.generate_proof
  rw [if_neg]
  · rfl
  · intro hc
    rcases hc with ⟨_, hr⟩
    unfold revelationConstraints at hr
    obtain ⟨_, hbn, _, _, hfresh⟩ := hr
    omega

/-- Witness for C4 at a concrete input: the database attests last block 5594950 while
the claimed max block is 5594951, and proving fails. -/
theorem generate_proof_rejects_stale_db_witness :
    c4badInp.block_db_proof.last_block_number
        < c4badInp.logic_inputs.query_max_block_number
      ∧ exceptIsOk (testParams.generate_proof c4badInp) = false :=
  ⟨by decide, generate_proof_rejects_stale_db testParams c4badInp (by decide)⟩

/-- C5: for every input collection of raw keys whose count exceeds L, the input
assembler RevelationRecursiveInput.new fails with a validation error, before any
witness assignment, producing no partial state. -/
theorem new_rejects_oversized_count (L : Nat) (keys : List (List Nat))
    (qmin qmax : Nat) (qp : Query2BlockProof) (dbp : BlockDbProof)
    (h : L < keys.length) :
    exceptIsOk (RevelationRecursiveInput.new L keys qmin qmax qp dbp) = false := by
  unfold RevelationRecursiveInput.new
  split
  · rfl
  · rw [if_neg (by omega)]
    rfl

/-- Witness for C5 at a concrete input: two keys against L = 1. -/
theorem new_rejects_oversized_count_witness :
    1 < ([[1], [2]] : List (List Nat)).length
      ∧ exceptIsOk (RevelationRecursiveInput.new 1 [[1], [2]] 0 0 testQueryProof
          testDbProof) = false :=
  ⟨by decide, new_rejects_oversized_count 1 [[1], [2]] 0 0 testQueryProof testDbProof
    (by decide)⟩

set_option maxRecDepth 10000 in
/-- C6 counterexample: with L = 256 and 256 distinct single-byte keys, the occupancy
count (stored as a `u8` in the source) truncates to 0, while array position 1 - which
is beyond the read-back occupancy - holds the non-zero packed key of byte 1; so the
claim's zero-fill-beyond-occupancy property fails as stated for unbounded L. -/
theorem canonical_builder_occupancy_truncated_cex :
    c6keys.length = 256
      ∧ (RevelationRecursiveInput.new 256 c6keys 0 0 testQueryProof testDbProof).map
          (fun inp => (inp.logic_inputs.num_entries,
            inp.logic_inputs.packed_keys[1]?))
        = .ok (0, some [0, 0, 0, 0, 0, 0, 0, 1]) :=
  ⟨by rfl, by rfl⟩

/-- C6 (amended): for every input collection of at most L keys, each at most the
32-byte width and fewer than 256 in number (the occupancy count is stored as a single
byte), the builder outputs exactly L packed keys, each the packed form of a left-padded
input key or the zero key, keyed and sorted strictly ascending by the numeric value of
the final packed limb, with the explicit occupancy count equal to the input count, and
every array position beyond the occupancy count zero-filled. -/
theorem canonical_builder_spec (L : Nat) (keys : List (List Nat)) (qmin qmax : Nat)
    (qp : Query2BlockProof) (dbp : BlockDbProof)
    (hlen : ∀ k ∈ keys, k.length ≤ 32)
    (hL : keys.length ≤ L)
    (h256 : keys.length < 256) :
    RevelationRecursiveInput.new L keys qmin qmax qp dbp
        = .ok { logic_inputs :=
                  { packed_keys := canonKeys L keys
                    num_entries := keys.length
                    query_min_block_number := qmin
                    query_max_block_number := qmax }
                query2_block_proof := qp
                block_db_proof := dbp }
      ∧ (canonKeys L keys).length = L
      ∧ (∀ pk ∈ canonKeys L keys, pk.length = PACKED_MAPPING_KEY_LEN)
      ∧ (∀ pk ∈ canonKeys L keys,
          pk = zeroKey ∨ ∃ raw ∈ keys, pk = pack (left_pad32 raw))
      ∧ List.Pairwise (fun a b => a.1 < b.1) (canonMap keys)
      ∧ (∀ q ∈ canonMap keys, q.1 = q.2.getLast?.getD 0)
      ∧ (∀ i, keys.length ≤ i → i < L → (canonKeys L keys)[i]? = some zeroKey) := by
  have hm : (canonMap keys).length ≤ keys.length := canonMap_length_le keys
  have hany : keys.any (fun k => 32 < k.length) = false := by
    rw [List.any_eq_false]
    intro k hk
    simpa using hlen k hk
  refine ⟨?_, ?_, ?_, ?_, canonMap_sorted keys, ?_, ?_⟩
  · unfold RevelationRecursiveInput.new
    rw [hany]
    simp only [Bool.false_eq_true, if_false, if_pos hL, Nat.mod_eq_of_lt h256]
  · rw [canonKeys, List.length_take, List.length_append, List.length_map,
      List.length_replicate]
    omega
  · intro pk hpk
    rcases List.mem_append.1 (List.mem_of_mem_take hpk) with hpk | hpk
    · rcases List.mem_map.1 hpk with ⟨q, hq, rfl⟩
      rcases canonMap_mem q keys hq with ⟨raw, hraw, rfl⟩
      show (packKey raw).length = PACKED_MAPPING_KEY_LEN
      rw [packKey, pack_length 8 (left_pad32 raw)
        (by rw [left_pad32_length raw (hlen raw hraw)])]
      rfl
    · rw [List.eq_of_mem_replicate hpk, zeroKey]
      rfl
  · intro pk hpk
    rcases List.mem_append.1 (List.mem_of_mem_take hpk) with hpk | hpk
    · rcases List.mem_map.1 hpk with ⟨q, hq, rfl⟩
      rcases canonMap_mem q keys hq with ⟨raw, hraw, rfl⟩
      exact Or.inr ⟨raw, hraw, rfl⟩
    · exact Or.inl (List.eq_of_mem_replicate hpk)
  · intro q hq
    rcases canonMap_mem q keys hq with ⟨raw, _, rfl⟩
    rfl
  · intro i hi hiL
    rw [canonKeys, List.getElem?_take, if_pos hiL,
      List.getElem?_append_right (by rw [List.length_map]; omega),
      List.getElem?_replicate, if_pos (by rw [List.length_map]; omega)]

/-- Witness for the amended C6 at a concrete input: two single-byte keys against
L = 3, with the builder succeeding and producing occupancy 2. -/
theorem canonical_builder_spec_witness :
    (∀ k ∈ ([[2], [1]] : List (List Nat)), k.length ≤ 32)
      ∧ ([[2], [1]] : List (List Nat)).length ≤ 3
      ∧ ([[2], [1]] : List (List Nat)).length < 256
      ∧ RevelationRecursiveInput.new 3 [[2], [1]] 0 0 testQueryProof testDbProof
          = .ok { logic_inputs :=
                    { packed_keys := canonKeys 3 [[2], [1]]
                      num_entries := 2
                      query_min_block_number := 0
                      query_max_block_number := 0 }
                  query2_block_proof := testQueryProof
                  block_db_proof := testDbProof } :=
  ⟨by decide, by decide, by decide,
    (canonical_builder_spec 3 [[2], [1]] 0 0 testQueryProof testDbProof (by decide)
      (by decide) (by decide)).1⟩

/-- C7: for every two distinct input keys whose packed representations share the same
final limb, the builder stores only one of them: the intermediate ordered structure
overwrites on collision of the sort key, so deduplication is by the final limb only.
The second key survives and the first is dropped, while the occupancy count still
counts both. -/
theorem builder_merges_on_last_limb_collision (L : Nat) (a b : List Nat)
    (qmin qmax : Nat) (qp : Query2BlockProof) (dbp : BlockDbProof) (hL : 2 ≤ L)
    (ha : a.length ≤ 32) (hb : b.length ≤ 32)
    (_hne : packKey a ≠ packKey b) (hlimb : lastLimb a = lastLimb b) :
    canonMap [a, b] = [(lastLimb b, packKey b)]
      ∧ RevelationRecursiveInput.new L [a, b] qmin qmax qp dbp
          = .ok { logic_inputs :=
                    { packed_keys := packKey b :: List.replicate (L - 1) zeroKey
                      num_entries := 2
                      query_min_block_number := qmin
                      query_max_block_number := qmax }
                  query2_block_proof := qp
                  block_db_proof := dbp } := by
  have hmap : canonMap [a, b] = [(lastLimb b, packKey b)] := by
    simp [canonMap, insertKV, hlimb]
  refine ⟨hmap, ?_⟩
  have hkeys : canonKeys L [a, b] = packKey b :: List.replicate (L - 1) zeroKey := by
    rw [canonKeys, hmap]
    rw [List.take_of_length_le (by simp; omega)]
    simp
  have hany : ([a, b] : List (List Nat)).any (fun k => 32 < k.length) = false := by
    simp only [List.any_cons, List.any_nil, Bool.or_false, Bool.or_eq_false_iff,
      decide_eq_false_iff_not]
    omega
  unfold RevelationRecursiveInput.new
  rw [hany]
  simp only [Bool.false_eq_true, if_false]
  rw [if_pos (by simp; omega)]
  rw [hkeys]
  rfl

/-- Witness for C7 at a concrete input: keys [1,0,0,0,7] and [7] have distinct packed
forms but the same final limb 7, and the map keeps only the packing of the second. -/
theorem builder_merges_on_last_limb_collision_witness :
    packKey [1, 0, 0, 0, 7] ≠ packKey [7]
      ∧ lastLimb [1, 0, 0, 0, 7] = lastLimb [7]
      ∧ canonMap [[1, 0, 0, 0, 7], [7]] = [(lastLimb [7], packKey [7])] :=
  ⟨by decide, by decide,
    (builder_merges_on_last_limb_collision 2 [1, 0, 0, 0, 7] [7] 0 0 testQueryProof
      testDbProof (by decide) (by decide) (by decide) (by decide) (by decide)).1⟩

/-- C8: for every key set of size at most L that is already in canonical form (full
32-byte width, strictly ascending - hence deduplicated - final limbs), applying the
packing-and-sorting canonicalization to the key set stored by the builder yields the
same output as canonicalizing the original set: the operation is idempotent on
already-canonical sets. -/
theorem canonicalization_idempotent (L : Nat) (ks : List (List Nat)) (qmin qmax : Nat)
    (qp : Query2BlockProof) (dbp : BlockDbProof)
    (hlen : ∀ k ∈ ks, k.length = 32)
    (hbytes : ∀ k ∈ ks, ∀ x ∈ k, x < 256)
    (hsorted : List.Pairwise (fun u v => lastLimb u < lastLimb v) ks)
    (_hL : ks.length ≤ L) :
    RevelationRecursiveInput.new L ((canonMap ks).map (fun q => unpack q.2))
        qmin qmax qp dbp
      = RevelationRecursiveInput.new L ks qmin qmax qp dbp := by
  have hre : (canonMap ks).map (fun q => unpack q.2) = ks := by
    rw [canonMap_of_sorted ks hsorted, List.map_map]
    have hun : ∀ k ∈ ks, unpack (packKey k) = k := by
      intro k hk
      rw [packKey, left_pad32_of_length k (hlen k hk)]
      exact unpack_pack 8 k (by rw [hlen k hk]) (hbytes k hk)
    calc ks.map ((fun q : Nat × List Nat => unpack q.2) ∘ fun k => (lastLimb k, packKey k))
        = ks.map (fun k => unpack (packKey k)) := rfl
      _ = ks.map id := List.map_congr_left hun
      _ = ks := List.map_id ks
  rw [hre]

/-- Witness for C8 at a concrete input: two canonical 32-byte keys with final limbs
1 and 2; re-canonicalizing the stored set reproduces the builder's output. -/
theorem canonicalization_idempotent_witness :
    (∀ k ∈ c8ks, k.length = 32)
      ∧ (∀ k ∈ c8ks, ∀ x ∈ k, x < 256)
      ∧ List.Pairwise (fun u v => lastLimb u < lastLimb v) c8ks
      ∧ RevelationRecursiveInput.new 2 ((canonMap c8ks).map (fun q => unpack q.2))
            0 0 testQueryProof testDbProof
          = RevelationRecursiveInput.new 2 c8ks 0 0 testQueryProof testDbProof :=
  ⟨by decide, by decide, by decide,
    canonicalization_idempotent 2 c8ks 0 0 testQueryProof testDbProof (by decide)
      (by decide) (by decide) (by decide)⟩

/-- C10: for every input list of at most L raw keys whose packed final limbs are
pairwise distinct, the output of RevelationRecursiveInput.new is identical for every
permutation of the input list. -/
theorem new_permutation_invariant (L : Nat) (l l' : List (List Nat))
    (qmin qmax : Nat) (qp : Query2BlockProof) (dbp : BlockDbProof)
    (hperm : l.Perm l') (hnodup : (l.map lastLimb).Nodup) :
    RevelationRecursiveInput.new L l qmin qmax qp dbp
      = RevelationRecursiveInput.new L l' qmin qmax qp dbp := by
  have hcanon : canonMap l = canonMap l' := by
    apply foldl_perm_of_comm _ hperm _ []
    intro x hx y hy z
    by_cases hxy : lastLimb x = lastLimb y
    · have hv : x = y := List.inj_on_of_nodup_map hnodup hx hy hxy
      subst hv
      rfl
    · exact insertKV_comm z (lastLimb x) (packKey x) (lastLimb y) (packKey y) hxy
  have hck : canonKeys L l = canonKeys L l' := by
    rw [canonKeys, canonKeys, hcanon]
  have hany : l.any (fun k => 32 < k.length) = l'.any (fun k => 32 < k.length) :=
    any_perm _ hperm
  unfold RevelationRecursiveInput.new
  rw [hany, hperm.length_eq, hck]

/-- Witness for C10 at a concrete input: swapping two keys with distinct final limbs
leaves the assembled input unchanged. -/
theorem new_permutation_invariant_witness :
    ([[1], [2]] : List (List Nat)).Perm [[2], [1]]
      ∧ (([[1], [2]] : List (List Nat)).map lastLimb).Nodup
      ∧ RevelationRecursiveInput.new 2 [[1], [2]] 0 0 testQueryProof testDbProof
          = RevelationRecursiveInput.new 2 [[2], [1]] 0 0 testQueryProof testDbProof :=
  ⟨List.Perm.swap [2] [1] [], by decide,
    new_permutation_invariant 2 [[1], [2]] [[2], [1]] 0 0 testQueryProof testDbProof
      (List.Perm.swap [2] [1] []) (by decide)⟩

/-- C1 counterexample: a Parameters object and input whose two sub-proofs are genuine
members of their expected families and whose claims satisfy every consistency
condition enumerated by the claim (matching digest, matching block range, database
last block number at least the query max block number), yet generate_proof fails,
because the query-side claimed root (8) differs from the database-side attested last
root (7) - a root-consistency condition the claim omits. -/
theorem generate_then_verify_root_mismatch_cex :
    c1badInp.block_db_proof.valid = true
      ∧ c1badInp.block_db_proof.vk = testParams.block_db_vk
      ∧ c1badInp.query2_block_proof.valid = true
      ∧ c1badInp.query2_block_proof.vk ∈ testParams.query2_block_circuit_set
      ∧ c1badInp.query2_block_proof.digest
          = circuitDigest c1badInp.logic_inputs.packed_keys
              c1badInp.logic_inputs.num_entries
      ∧ c1badInp.query2_block_proof.block_number
          = c1badInp.logic_inputs.query_max_block_number
      ∧ c1badInp.query2_block_proof.range
          = c1badInp.logic_inputs.query_max_block_number
              - c1badInp.logic_inputs.query_min_block_number
      ∧ c1badInp.logic_inputs.query_max_block_number
          ≤ c1badInp.block_db_proof.last_block_number
      ∧ exceptIsOk (testParams.generate_proof c1badInp) = false := by
  decide

/-- C1 (amended): for every Parameters object and every RevelationRecursiveInput whose
two sub-proofs are genuine members of their expected proof families and whose claims
are mutually consistent - matching digest, matching block range, the query-side claimed
root equal to the database-side attested last root, and database last block number at
least the query max block number - generate_proof returns a proof without error and
verify_proof on that proof with the same Parameters returns ok. -/
theorem generate_then_verify_succeeds (p : Parameters)
    (inp : RevelationRecursiveInput)
    (hdbv : inp.block_db_proof.valid = true)
    (hdbk : inp.block_db_proof.vk = p.block_db_vk)
    (hqv : inp.query2_block_proof.valid = true)
    (hqk : inp.query2_block_proof.vk ∈ p.query2_block_circuit_set)
    (hdig : inp.query2_block_proof.digest
      = circuitDigest inp.logic_inputs.packed_keys inp.logic_inputs.num_entries)
    (hbn : inp.query2_block_proof.block_number
      = inp.logic_inputs.query_max_block_number)
    (hrange : inp.query2_block_proof.range
      = inp.logic_inputs.query_max_block_number
          - inp.logic_inputs.query_min_block_number)
    (hroot : inp.query2_block_proof.root = inp.block_db_proof.last_root)
    (hfresh : inp.logic_inputs.query_max_block_number
      ≤ inp.block_db_proof.last_block_number) :
    ∃ pr, p.generate_proof inp = .ok pr ∧ p.verify_proof pr = .ok () := by
  refine ⟨{ publicInputs := publicInputLayout inp, vkey := paramsVKey p }, ?_, ?_⟩
  · unfold Parameters.generate_proof
    rw [if_pos]
    constructor
    · unfold gadgetChecks
      exact ⟨hdbv, hdbk, hqv, hqk⟩
    · unfold revelationConstraints
      exact ⟨hdig, hbn, hrange, hroot, by omega⟩
  · unfold Parameters.verify_proof
    rw [if_pos rfl]

/-- Witness for the amended C1 at the end-to-end test input, whose root does match. -/
theorem generate_then_verify_succeeds_witness :
    goodInp.query2_block_proof.root = goodInp.block_db_proof.last_root
      ∧ ∃ pr, testParams.generate_proof goodInp = .ok pr
          ∧ testParams.verify_proof pr = .ok () :=
  ⟨by decide,
    generate_then_verify_succeeds testParams goodInp (by decide) (by decide)
      (by decide) (by decide) (by decide) (by decide) (by decide) (by decide)
      (by decide)⟩

/-- C9: the end-to-end scenario of groth16-framework/tests/query2.rs: five identical
zero-valued keys, block range [5594951, 5594951], a synthetic database-side proof
attesting last block number max_block_number + 1, and a synthetic query-aggregation
proof over the digest of those five keys.  The assembler succeeds, generate_proof
succeeds, verify_proof on the resulting proof succeeds, and the occupancy slot of the
proof's public inputs (position L * 8 = 40) reads back as 5. -/
theorem revelation_end_to_end_query2_test :
    ((RevelationRecursiveInput.new 5 testKeys testMinBlock testMaxBlock testQueryProof
        testDbProof).bind
      (fun inp => testParams.generate_proof inp)).map
      (fun pr => (testParams.verify_proof pr, pr.publicInputs[40]?))
      = .ok (.ok (), some 5) := by
  rfl
